import Mathlib

/-!
Shallow embedding of the Truth-or-Dare game server
(src/server/routes.ts, storage MemStorage, file-upload util).

JavaScript Map objects are modelled as association lists in insertion
order: Map.set replaces the value in place when the key exists and
appends otherwise; Map.delete filters the key out.  Wall-clock timers
are modelled as explicit pending-timer records with identifiers, and
timer callbacks as functions fired on a given identifier.  Randomness
(Math.random-based index picks) is modelled by a natural-number
parameter reduced modulo the candidate-list length.  Socket broadcasts
are modelled as a list of Event values returned next to the new state.
-/

namespace TruthOrDare

/-- The five game phases stored in GameState.gamePhase (§4.2, storage). -/
inductive GamePhase
  | waiting
  | spinning
  | choosing
  | asking
  | answering
deriving DecidableEq, Repr

/-- The truth-or-dare choice stored in GameState.choice. -/
inductive Choice
  | truth
  | dare
deriving DecidableEq, Repr

/-- User record (MemStorage.createUser).  joinedAt is epoch milliseconds. -/
structure User where
  id : String
  username : String
  roomId : String
  isHost : Bool
  isOnline : Bool
  skipsRemaining : Int
  joinedAt : Nat
  socketId : String
deriving DecidableEq, Repr

/-- Room record (MemStorage.createRoom).  lastActivity is epoch milliseconds. -/
structure Room where
  id : String
  roomKey : String
  hostUserId : String
  maxSkips : Int
  lastActivity : Nat
  isExpired : Bool
deriving DecidableEq, Repr

/-- Game-state record (MemStorage.createGameState), one per room. -/
structure GameState where
  roomId : String
  currentTurnUserId : Option String
  targetUserId : Option String
  gamePhase : GamePhase
  questionText : Option String
  choice : Option Choice
deriving DecidableEq, Repr

/-- Chat message record; only the fields the reap sweep consults. -/
structure Message where
  id : String
  roomId : String
  mediaUrl : Option String
  createdAt : Nat
deriving DecidableEq, Repr

/-- Ban record created when a kick vote passes (MemStorage.createKickedUser). -/
structure KickedUser where
  roomId : String
  ipAddress : String
  username : String
deriving DecidableEq, Repr

/-- Vote kinds (VoteData.type in routes.ts). -/
inductive VoteType
  | kick
  | rejoin
deriving DecidableEq, Repr

/-- In-memory VoteData of routes.ts.  votes is the ballot Map
(voter id to yes/no) in insertion order; hasTimer records whether the
30-second resolution timeout handle is set. -/
structure VoteData where
  voteId : String
  targetUserId : String
  targetUsername : String
  initiatorUserId : String
  initiatorUsername : String
  type : VoteType
  votes : List (String × Bool)
  hasTimer : Bool
deriving DecidableEq, Repr

/-- Map.get: first value bound to the key. -/
def mapGet {α : Type} (m : List (String × α)) (k : String) : Option α :=
  match m with
  | [] => none
  | (k', v) :: rest => if k' = k then some v else mapGet rest k

/-- Map.set: replace in place when the key exists, append otherwise. -/
def mapSet {α : Type} (m : List (String × α)) (k : String) (v : α) : List (String × α) :=
  match m with
  | [] => [(k, v)]
  | (k', v') :: rest => if k' = k then (k, v) :: rest else (k', v') :: mapSet rest k v

/-- Map.delete. -/
def mapDelete {α : Type} (m : List (String × α)) (k : String) : List (String × α) :=
  m.filter (fun p => p.1 ≠ k)

/-- Server-to-client events; payloads trimmed to the fields the spec
talks about. -/
inductive Event
  | userLeft (userId : String)
  | newHost (userId username : String)
  | voteResolved (voteId : String) (passed : Bool) (yesVotes noVotes : Nat)
  | voteUpdated (voteId : String) (yesCnt noCnt : Nat)
  | userInactive (userId username : String)
  | voteStarted (voteId targetUserId targetUsername initiatorUsername : String)
      (t : VoteType)
  | bottleSpinning (targetUserId : String) (duration : Nat) (spinnerUserId : String)
  | errorEvent (message : String)
  | userUsedSkip (userId : String) (skipsRemaining : Int)
  | nextTurnEmitToCaller (roomId : String)
  | gameStateUpdated
deriving DecidableEq, Repr

/-- The server storage plus the process-wide activeVotes map of routes.ts.
files lists the names of uploaded media files on disk. -/
structure ServerState where
  rooms : List Room
  users : List User
  messages : List Message
  kickedUsers : List KickedUser
  gameStates : List GameState
  files : List String
  activeVotes : List (String × VoteData)
deriving DecidableEq, Repr

/-- storage.getUser. -/
def getUser (users : List User) (uid : String) : Option User :=
  users.find? (fun u => u.id = uid)

/-- storage.getUsersByRoom. -/
def usersByRoom (users : List User) (roomId : String) : List User :=
  users.filter (fun u => u.roomId = roomId)

/-- storage.updateUserSkips. -/
def updateUserSkips (users : List User) (uid : String) (n : Int) : List User :=
  users.map (fun u => if u.id = uid then { u with skipsRemaining := n } else u)

/-- storage.updateUserOnline (without socket change). -/
def updateUserOnline (users : List User) (uid : String) (b : Bool) : List User :=
  users.map (fun u => if u.id = uid then { u with isOnline := b } else u)

/-- storage.makeUserHost: sets the isHost flag of the given user;
it never clears another user's flag. -/
def makeUserHost (users : List User) (uid : String) : List User :=
  users.map (fun u => if u.id = uid then { u with isHost := true } else u)

/-- storage.updateRoomHost. -/
def updateRoomHost (rooms : List Room) (roomId uid : String) : List Room :=
  rooms.map (fun r => if r.id = roomId then { r with hostUserId := uid } else r)

/-- storage.deleteUser. -/
def deleteUser (users : List User) (uid : String) : List User :=
  users.filter (fun u => u.id ≠ uid)

/-- remainingUsers.sort(by joinedAt)[0]: with a stable ascending sort this
is the first list element whose joinedAt is minimal. -/
def oldestUser : List User → Option User
  | [] => none
  | u :: rest =>
    match oldestUser rest with
    | none => some u
    | some v => if u.joinedAt ≤ v.joinedAt then some u else some v

/-! ## Turn Engine handlers (routes.ts) -/

/-- choose_truth_or_dare handler: sets gamePhase to asking and records the
choice.  The current phase is not examined. -/
def chooseTruthOrDare (gs : GameState) (c : Choice) : GameState :=
  { gs with gamePhase := GamePhase.asking, choice := some c }

/-- submit_question handler: sets gamePhase to answering and records the
question text.  The current phase is not examined. -/
def submitQuestion (gs : GameState) (q : String) : GameState :=
  { gs with gamePhase := GamePhase.answering, questionText := some q }

/-- Result of the spin_bottle handler.  insufficientPlayers is the
"Not enough players" error; jsError is the caught exception branch
(target index out of range); both leave the game state unchanged. -/
inductive SpinResult
  | insufficientPlayers
  | jsError
  | spun (gs : GameState) (targetId : String) (duration : Nat)
deriving DecidableEq, Repr

/-- spin_bottle handler.  ri and di model the two Math.random index
draws (reduced modulo the candidate-list length). -/
def spinBottle (users : List User) (gs : GameState) (callerId : String)
    (ri di : Nat) : SpinResult :=
  let onlineUsers := users.filter (fun u => u.isOnline)
  if onlineUsers.length < 2 then SpinResult.insufficientPlayers
  else
    let otherUsers := onlineUsers.filter (fun u => u.id ≠ callerId)
    match otherUsers.get? (ri % otherUsers.length) with
    | none => SpinResult.jsError
    | some target =>
      let durations : List Nat := [2000, 4500, 7000]
      let duration := (durations.get? (di % durations.length)).getD 2000
      SpinResult.spun
        { gs with gamePhase := GamePhase.spinning, targetUserId := some target.id }
        target.id duration

/-- next_turn handler: with fewer than 2 online users it returns without
changes; otherwise it advances currentTurn to the next online user in
list order (findIndex yields -1 when the current turn user is absent,
so the next index is 0), clears target, question and choice, and sets
the phase to choosing for exactly 2 online users and waiting otherwise. -/
def nextTurnIndex (onlineUsers : List User) (cur : Option String) : Nat :=
  let currentIndex : Int :=
    match onlineUsers.findIdx? (fun u => some u.id = cur) with
    | some i => (i : Int)
    | none => -1
  ((currentIndex + 1) % (onlineUsers.length : Int)).toNat

def nextTurn (users : List User) (gs : GameState) : GameState :=
  let onlineUsers := users.filter (fun u => u.isOnline)
  if onlineUsers.length < 2 then gs
  else
    match onlineUsers.get? (nextTurnIndex onlineUsers gs.currentTurnUserId) with
    | none => gs
    | some nextUser =>
      { gs with
        currentTurnUserId := some nextUser.id,
        targetUserId := none,
        gamePhase := if onlineUsers.length = 2 then GamePhase.choosing
                     else GamePhase.waiting,
        questionText := none,
        choice := none }

/-- The phase-transition edges of spec §4.2 (this definition follows the
wording of the spec, for comparison with the code-derived handlers):
waiting to spinning, spinning to choosing, choosing to asking, asking to
answering, answering to waiting or choosing. -/
def specEdge : GamePhase → GamePhase → Bool
  | GamePhase.waiting, GamePhase.spinning => true
  | GamePhase.spinning, GamePhase.choosing => true
  | GamePhase.choosing, GamePhase.asking => true
  | GamePhase.asking, GamePhase.answering => true
  | GamePhase.answering, GamePhase.waiting => true
  | GamePhase.answering, GamePhase.choosing => true
  | _, _ => false

/-- A fresh game state as created by storage.createGameState. -/
def initialGameState (roomId : String) : GameState :=
  { roomId := roomId
    currentTurnUserId := none
    targetUserId := none
    gamePhase := GamePhase.waiting
    questionText := none
    choice := none }

/-! ## Vote Subsystem (routes.ts) -/

/-- Yes ballots in a vote: Array.from(votes.values()).filter(v => v).length. -/
def yesCount (votes : List (String × Bool)) : Nat :=
  (votes.filter (fun p => p.2)).length

/-- No ballots in a vote: Array.from(votes.values()).filter(v => !v).length. -/
def noCount (votes : List (String × Bool)) : Nat :=
  (votes.filter (fun p => !p.2)).length

/-- The 30-second vote resolution timeout delay (setTimeout in
initiate_vote and in the inactivity escalation). -/
def voteTimeoutMs : Nat := 30000

/-- The pass branch of resolveVote for kick votes: creates the ban
record, deletes the target user, and, when users remain in the room and
the target held the host flag, makes the first minimal-joinedAt
remaining user (online or not) the new host.  The targeted
kicked_from_room emit depends on the socket registry and is not
modelled; the room broadcasts are. -/
def applyKick (s : ServerState) (vd : VoteData) (roomId ip : String) :
    ServerState × List Event :=
  match getUser s.users vd.targetUserId with
  | none => (s, [])
  | some targetUser =>
    let s1 : ServerState :=
      { s with
        kickedUsers := s.kickedUsers ++ [⟨roomId, ip, targetUser.username⟩],
        users := deleteUser s.users vd.targetUserId }
    let remainingUsers := usersByRoom s1.users roomId
    if 0 < remainingUsers.length ∧ targetUser.isHost = true then
      match oldestUser remainingUsers with
      | none => (s1, [Event.userLeft vd.targetUserId])
      | some oldest =>
        ({ s1 with
           users := makeUserHost s1.users oldest.id,
           rooms := updateRoomHost s1.rooms roomId oldest.id },
         [Event.userLeft vd.targetUserId, Event.newHost oldest.id oldest.username])
    else (s1, [Event.userLeft vd.targetUserId])

/-- resolveVote: looks the vote up in activeVotes and returns unchanged
when absent; otherwise computes the counts, passes iff yes strictly
exceeds no, applies the kick on pass for kind kick, broadcasts
vote_resolved with pass/fail and both counts, and deletes the vote. -/
def resolveVote (s : ServerState) (voteId roomId ip : String) :
    ServerState × List Event :=
  match mapGet s.activeVotes voteId with
  | none => (s, [])
  | some vd =>
    let yesVotes := yesCount vd.votes
    let noVotes := noCount vd.votes
    let passed := decide (noVotes < yesVotes)
    match (if noVotes < yesVotes ∧ vd.type = VoteType.kick
           then applyKick s vd roomId ip else (s, [])) with
    | (s1, evs) =>
      ({ s1 with activeVotes := mapDelete s1.activeVotes voteId },
       evs ++ [Event.voteResolved voteId passed yesVotes noVotes])

/-! ## Claim C1: phase transitions -/

theorem nextTurnIndex_lt (l : List User) (cur : Option String) (h : 0 < l.length) :
    nextTurnIndex l cur < l.length := by
  have hlen : (0 : Int) < (l.length : Int) := by exact_mod_cast h
  unfold nextTurnIndex
  rcases hf : l.findIdx? (fun u => some u.id = cur) with _ | i
  · simp only [hf]
    have h1 : (0 : Int) ≤ (-1 + 1) % (l.length : Int) := Int.emod_nonneg _ (by omega)
    have h2 : (-1 + 1) % (l.length : Int) < (l.length : Int) := Int.emod_lt_of_pos _ hlen
    omega
  · simp only [hf]
    have h1 : (0 : Int) ≤ ((i : Int) + 1) % (l.length : Int) := Int.emod_nonneg _ (by omega)
    have h2 : ((i : Int) + 1) % (l.length : Int) < (l.length : Int) :=
      Int.emod_lt_of_pos _ hlen
    omega

theorem nextTurn_eq_of_two_online (users : List User) (gs : GameState)
    (h2 : 2 ≤ (users.filter (fun u => u.isOnline)).length) :
    ∃ nextUser ∈ users.filter (fun u => u.isOnline),
      nextTurn users gs =
        { gs with
          currentTurnUserId := some nextUser.id,
          targetUserId := none,
          gamePhase := if (users.filter (fun u => u.isOnline)).length = 2
                       then GamePhase.choosing else GamePhase.waiting,
          questionText := none,
          choice := none } := by
  have hlt := nextTurnIndex_lt (users.filter (fun u => u.isOnline))
    gs.currentTurnUserId (by omega)
  simp only [nextTurn]
  rw [if_neg (by omega)]
  rcases hg : (users.filter (fun u => u.isOnline)).get?
      (nextTurnIndex (users.filter (fun u => u.isOnline)) gs.currentTurnUserId) with _ | u
  · rw [List.get?_eq_none] at hg
    omega
  · exact ⟨u, List.get?_mem hg, by simp only [hg]⟩

/-- C1 (counterexample): in a fresh room the phase is waiting, yet a
choose_truth_or_dare event is not rejected: it changes the state and
moves the phase to asking, although waiting to asking is not an edge of
the §4.2 state machine. -/
theorem c1_invalid_transition_not_rejected :
    (initialGameState "r").gamePhase = GamePhase.waiting ∧
    (chooseTruthOrDare (initialGameState "r") Choice.truth).gamePhase = GamePhase.asking ∧
    specEdge GamePhase.waiting GamePhase.asking = false ∧
    chooseTruthOrDare (initialGameState "r") Choice.truth ≠ initialGameState "r" := by
  refine ⟨rfl, rfl, rfl, ?_⟩
  decide

/-- C1 (amended): the game-event handlers perform no phase validation.
choose_truth_or_dare always sets the phase to asking and submit_question
always sets answering, whatever the current phase; a successful
spin_bottle always sets spinning; next_turn with at least 2 online users
always sets choosing when exactly 2 users are online and waiting
otherwise.  Hence an event arriving in a phase where it is not a §4.2
edge is not rejected and may move the phase along a non-§4.2 edge. -/
theorem c1_handlers_set_phase_unconditionally :
    (∀ gs c, (chooseTruthOrDare gs c).gamePhase = GamePhase.asking) ∧
    (∀ gs q, (submitQuestion gs q).gamePhase = GamePhase.answering) ∧
    (∀ users gs callerId ri di gs2 t d,
      spinBottle users gs callerId ri di = SpinResult.spun gs2 t d →
      gs2.gamePhase = GamePhase.spinning) ∧
    (∀ users gs, 2 ≤ (users.filter (fun u => u.isOnline)).length →
      (nextTurn users gs).gamePhase =
        (if (users.filter (fun u => u.isOnline)).length = 2
         then GamePhase.choosing else GamePhase.waiting)) := by
  refine ⟨fun gs c => rfl, fun gs q => rfl, ?_, ?_⟩
  · intro users gs callerId ri di gs2 t d hspin
    simp only [spinBottle] at hspin
    split at hspin
    · exact absurd hspin (by simp)
    · split at hspin
      · exact absurd hspin (by simp)
      · rw [SpinResult.spun.injEq] at hspin
        rw [← hspin.1]
  · intro users gs h2
    obtain ⟨u, _, hu⟩ := nextTurn_eq_of_two_online users gs h2
    rw [hu]

/-- C1 witness: the amended theorem evaluated at concrete inputs. -/
theorem c1_handlers_witness :
    (chooseTruthOrDare (initialGameState "r") Choice.dare).gamePhase = GamePhase.asking ∧
    (nextTurn
      [⟨"a", "A", "r", true, true, 3, 1, "s1"⟩, ⟨"b", "B", "r", false, true, 3, 2, "s2"⟩]
      (initialGameState "r")).gamePhase = GamePhase.choosing := by
  constructor
  · exact c1_handlers_set_phase_unconditionally.1 (initialGameState "r") Choice.dare
  · have := c1_handlers_set_phase_unconditionally.2.2.2
      [⟨"a", "A", "r", true, true, 3, 1, "s1"⟩, ⟨"b", "B", "r", false, true, 3, 2, "s2"⟩]
      (initialGameState "r") (by decide)
    rw [this]
    decide

/-! ## Claims C2 and C10: vote resolution -/

theorem mapGet_mapDelete {α : Type} (m : List (String × α)) (k : String) :
    mapGet (mapDelete m k) k = none := by
  induction m with
  | nil => rfl
  | cons p rest ih =>
    by_cases hp : p.1 = k
    · simpa [mapDelete, List.filter_cons, hp, mapGet] using ih
    · simpa [mapDelete, List.filter_cons, hp, mapGet] using ih

theorem mem_deleteUser (l : List User) (k : String) (u : User)
    (hu : u ∈ deleteUser l k) : u ∈ l ∧ u.id ≠ k := by
  simpa [deleteUser, List.mem_filter] using hu

theorem mem_makeUserHost_id (l : List User) (k : String) (u : User)
    (hu : u ∈ makeUserHost l k) : ∃ v ∈ l, u.id = v.id := by
  simp only [makeUserHost, List.mem_map] at hu
  obtain ⟨v, hv, rfl⟩ := hu
  refine ⟨v, hv, ?_⟩
  by_cases h : v.id = k <;> simp [h]

theorem applyKick_spec (s : ServerState) (vd : VoteData) (roomId ip : String)
    (tu : User) (h : getUser s.users vd.targetUserId = some tu) :
    (∀ u ∈ (applyKick s vd roomId ip).1.users, u.id ≠ vd.targetUserId) ∧
    (applyKick s vd roomId ip).1.kickedUsers
      = s.kickedUsers ++ [⟨roomId, ip, tu.username⟩] := by
  simp only [applyKick, h]
  constructor
  · intro u hu
    split at hu
    · split at hu
      · exact (mem_deleteUser _ _ u hu).2
      · obtain ⟨v, hv, hid⟩ := mem_makeUserHost_id _ _ u hu
        rw [hid]
        exact (mem_deleteUser _ _ v hv).2
    · exact (mem_deleteUser _ _ u hu).2
  · split
    · split <;> rfl
    · rfl

/-- C2: for every resolved vote found in activeVotes, a vote_resolved
event is broadcast carrying passed iff the yes count strictly exceeds
the no count (ties fail; only cast ballots are counted) together with
both counts; the vote is removed from activeVotes; on fail, or for any
kind other than kick, users, ban records and game states are unchanged;
on pass with kind kick, when the target user record exists, the target
is removed from the user set and a ban record for it is appended. -/
theorem c2_resolveVote_correct (s : ServerState) (voteId roomId ip : String)
    (vd : VoteData) (h : mapGet s.activeVotes voteId = some vd) :
    (Event.voteResolved voteId (decide (noCount vd.votes < yesCount vd.votes))
        (yesCount vd.votes) (noCount vd.votes) ∈ (resolveVote s voteId roomId ip).2) ∧
    mapGet (resolveVote s voteId roomId ip).1.activeVotes voteId = none ∧
    ((¬ noCount vd.votes < yesCount vd.votes ∨ vd.type ≠ VoteType.kick) →
      (resolveVote s voteId roomId ip).1.users = s.users ∧
      (resolveVote s voteId roomId ip).1.kickedUsers = s.kickedUsers ∧
      (resolveVote s voteId roomId ip).1.gameStates = s.gameStates) ∧
    (noCount vd.votes < yesCount vd.votes → vd.type = VoteType.kick →
      ∀ tu, getUser s.users vd.targetUserId = some tu →
        (∀ u ∈ (resolveVote s voteId roomId ip).1.users, u.id ≠ vd.targetUserId) ∧
        (resolveVote s voteId roomId ip).1.kickedUsers
          = s.kickedUsers ++ [⟨roomId, ip, tu.username⟩]) := by
  by_cases hk : noCount vd.votes < yesCount vd.votes ∧ vd.type = VoteType.kick
  · have hres : resolveVote s voteId roomId ip =
        ({ (applyKick s vd roomId ip).1 with
           activeVotes := mapDelete (applyKick s vd roomId ip).1.activeVotes voteId },
         (applyKick s vd roomId ip).2 ++
           [Event.voteResolved voteId (decide (noCount vd.votes < yesCount vd.votes))
             (yesCount vd.votes) (noCount vd.votes)]) := by
      simp only [resolveVote, h, if_pos hk]
    refine ⟨?_, ?_, ?_, ?_⟩
    · rw [hres]; simp
    · rw [hres]; exact mapGet_mapDelete _ _
    · intro hcontra
      rcases hcontra with hc | hc
      · exact absurd hk.1 hc
      · exact absurd hk.2 hc
    · intro _ _ tu htu
      have hs := applyKick_spec s vd roomId ip tu htu
      rw [hres]
      exact ⟨hs.1, hs.2⟩
  · have hres : resolveVote s voteId roomId ip =
        ({ s with activeVotes := mapDelete s.activeVotes voteId },
         [Event.voteResolved voteId (decide (noCount vd.votes < yesCount vd.votes))
           (yesCount vd.votes) (noCount vd.votes)]) := by
      simp only [resolveVote, h, if_neg hk]
      simp
    refine ⟨?_, ?_, ?_, ?_⟩
    · rw [hres]; simp
    · rw [hres]; exact mapGet_mapDelete _ _
    · intro _; rw [hres]; exact ⟨rfl, rfl, rfl⟩
    · intro h1 h2 tu htu
      exact absurd ⟨h1, h2⟩ hk

/-- C2 witness: a concrete 2-user room where the single yes ballot
passes a kick vote; the target is removed and a ban record created. -/
theorem c2_resolveVote_witness :
    (∀ u ∈ (resolveVote
        ⟨[], [⟨"t", "T", "r", false, true, 0, 1, "st"⟩,
              ⟨"a", "A", "r", true, true, 0, 2, "sa"⟩], [], [], [], [],
          [("v1", ⟨"v1", "t", "T", "a", "A", VoteType.kick, [("a", true)], true⟩)]⟩
        "v1" "r" "ip").1.users, u.id ≠ "t") ∧
    (resolveVote
        ⟨[], [⟨"t", "T", "r", false, true, 0, 1, "st"⟩,
              ⟨"a", "A", "r", true, true, 0, 2, "sa"⟩], [], [], [], [],
          [("v1", ⟨"v1", "t", "T", "a", "A", VoteType.kick, [("a", true)], true⟩)]⟩
        "v1" "r" "ip").1.kickedUsers = [⟨"r", "ip", "T"⟩] := by
  have h := c2_resolveVote_correct
    ⟨[], [⟨"t", "T", "r", false, true, 0, 1, "st"⟩,
          ⟨"a", "A", "r", true, true, 0, 2, "sa"⟩], [], [], [], [],
      [("v1", ⟨"v1", "t", "T", "a", "A", VoteType.kick, [("a", true)], true⟩)]⟩
    "v1" "r" "ip" ⟨"v1", "t", "T", "a", "A", VoteType.kick, [("a", true)], true⟩ rfl
  have h4 := h.2.2.2 (by decide) rfl ⟨"t", "T", "r", false, true, 0, 1, "st"⟩ rfl
  exact ⟨h4.1, by rw [h4.2]; rfl⟩

/-- C10: invoking resolveVote for a vote identifier absent from
activeVotes (e.g. a timeout callback firing after the vote already
resolved at quorum) returns the state unchanged and broadcasts nothing;
and any resolveVote call leaves the identifier absent from activeVotes,
so the first resolution removes it. -/
theorem c10_stale_resolution_noop :
    (∀ (s : ServerState) (voteId roomId ip : String),
      mapGet s.activeVotes voteId = none →
      resolveVote s voteId roomId ip = (s, [])) ∧
    (∀ (s : ServerState) (voteId roomId ip : String),
      mapGet (resolveVote s voteId roomId ip).1.activeVotes voteId = none) := by
  constructor
  · intro s voteId roomId ip h
    simp [resolveVote, h]
  · intro s voteId roomId ip
    rcases h : mapGet s.activeVotes voteId with _ | vd
    · simp [resolveVote, h]
    · simp only [resolveVote, h]
      split <;> exact mapGet_mapDelete _ _

/-- C10 witness: a state holding an unrelated vote v2; resolving the
already-discarded v1 is a no-op, and after resolving v2 it is gone. -/
theorem c10_stale_resolution_witness :
    resolveVote
      ⟨[], [], [], [], [], [],
        [("v2", ⟨"v2", "t", "T", "a", "A", VoteType.rejoin, [], true⟩)]⟩
      "v1" "r" "ip" =
      (⟨[], [], [], [], [], [],
        [("v2", ⟨"v2", "t", "T", "a", "A", VoteType.rejoin, [], true⟩)]⟩, []) ∧
    mapGet (resolveVote
      ⟨[], [], [], [], [], [],
        [("v2", ⟨"v2", "t", "T", "a", "A", VoteType.rejoin, [], true⟩)]⟩
      "v2" "r" "ip").1.activeVotes "v2" = none := by
  exact ⟨c10_stale_resolution_noop.1 _ "v1" "r" "ip" rfl,
         c10_stale_resolution_noop.2 _ "v2" "r" "ip"⟩

/-! ## Claims C3 and C4: ballot casting and quorum -/

/-- Eligible voters as computed by the cast_vote handler: all users of
the room other than the target, with no check of their online flag. -/
def eligibleVoters (users : List User) (targetUserId : String) : Nat :=
  (users.filter (fun u => u.id ≠ targetUserId)).length

/-- Result of the cast_vote handler. -/
inductive CastResult
  | ignored
  | accepted (s : ServerState) (evs : List Event)
  | resolvedEarly (s : ServerState) (evs : List Event)
deriving DecidableEq, Repr

/-- cast_vote handler: unknown vote ids are ignored; otherwise the
ballot is written with Map.set (overwriting any previous ballot of the
same voter), vote_updated with both counts is broadcast, and when the
ballot count reaches the eligible-voter count the 30-second timeout is
cleared (hasTimer set to false; the resolvedEarly constructor records
that branch) and the vote resolves immediately. -/
def castVote (s : ServerState) (voterId voteId roomId ip : String) (b : Bool) :
    CastResult :=
  match mapGet s.activeVotes voteId with
  | none => CastResult.ignored
  | some vd =>
    let votes2 := mapSet vd.votes voterId b
    let vd2 := { vd with votes := votes2 }
    let s2 : ServerState := { s with activeVotes := mapSet s.activeVotes voteId vd2 }
    let ev := Event.voteUpdated voteId (yesCount votes2) (noCount votes2)
    if eligibleVoters (usersByRoom s2.users roomId) vd.targetUserId ≤ votes2.length then
      match resolveVote
          { s2 with activeVotes := mapSet s2.activeVotes voteId { vd2 with hasTimer := false } }
          voteId roomId ip with
      | (s3, evs2) => CastResult.resolvedEarly s3 (ev :: evs2)
    else CastResult.accepted s2 [ev]

theorem yesCount_add_noCount (votes : List (String × Bool)) :
    yesCount votes + noCount votes = votes.length := by
  induction votes with
  | nil => rfl
  | cons p rest ih =>
    rcases p with ⟨k, b⟩
    cases b <;> simp [yesCount, noCount, List.filter_cons] at * <;> omega

theorem eligibleVoters_eq_length_sub_one (users : List User) (tu : User)
    (htu : tu ∈ users) (hnd : (users.map User.id).Nodup) :
    eligibleVoters users tu.id = users.length - 1 := by
  induction users with
  | nil => cases htu
  | cons u rest ih =>
    simp only [List.map_cons, List.nodup_cons] at hnd
    rcases List.mem_cons.mp htu with htu | htu
    · subst htu
      have hall : ∀ v ∈ rest, v.id ≠ tu.id := by
        intro v hv hveq
        exact hnd.1 (hveq ▸ List.mem_map_of_mem User.id hv)
      simp only [eligibleVoters, List.filter_cons, List.length_cons]
      rw [if_neg (by simp), List.filter_eq_self.mpr (fun v hv => by
        simpa using hall v hv)]
      omega
    · have hne : u.id ≠ tu.id := by
        intro hveq
        exact hnd.1 (hveq ▸ List.mem_map_of_mem User.id htu)
      have hrest := ih htu hnd.2
      have hlen : 1 ≤ rest.length := List.length_pos.mpr (List.ne_nil_of_mem htu)
      simp only [eligibleVoters, List.filter_cons, List.length_cons]
      rw [if_pos (by simp [hne])]
      simp only [eligibleVoters] at hrest
      simp only [List.length_cons]
      omega

theorem ballots_le_eligible (votes : List (String × Bool)) (users : List User)
    (tid : String) (hnd : (votes.map Prod.fst).Nodup)
    (hmem : ∀ k ∈ votes.map Prod.fst, ∃ u ∈ users, u.id = k ∧ k ≠ tid) :
    yesCount votes + noCount votes ≤ eligibleVoters users tid := by
  rw [yesCount_add_noCount]
  have hsub : votes.map Prod.fst ⊆ (users.filter (fun u => u.id ≠ tid)).map User.id := by
    intro k hk
    obtain ⟨u, hu, huk, hkt⟩ := hmem k hk
    subst huk
    exact List.mem_map_of_mem User.id (List.mem_filter.mpr ⟨hu, by simpa using hkt⟩)
  have h2 := (List.subperm_of_subset hnd hsub).length_le
  simp only [List.length_map] at h2
  exact h2

/-- C3 (counterexample): a 3-user room where one user is offline.  For a
vote targeting user a, the handler counts 2 eligible voters (all users
except the target, the offline one included), while the number of
online users minus one is 1. -/
theorem c3_eligible_counts_offline_users :
    eligibleVoters
      [⟨"a", "A", "r", false, true, 0, 1, "sa"⟩,
       ⟨"b", "B", "r", false, false, 0, 2, "sb"⟩,
       ⟨"c", "C", "r", false, true, 0, 3, "sc"⟩] "a" = 2 ∧
    (([⟨"a", "A", "r", false, true, 0, 1, "sa"⟩,
       ⟨"b", "B", "r", false, false, 0, 2, "sb"⟩,
       ⟨"c", "C", "r", false, true, 0, 3, "sc"⟩] : List User).filter
        (fun u => u.isOnline)).length - 1 = 1 := by
  decide

/-- C3 (amended): the eligible-voter count equals the number of users in
the room (online or offline) excluding the target; when every ballot
was cast by a distinct room user other than the target, yes plus no
counts stay within the eligible count; a cast resolves the vote early
exactly when the ballot count reaches the eligible count, clearing the
30000 ms timeout then, and otherwise the vote stays active. -/
theorem c3_quorum_correct :
    (∀ (users : List User) (tu : User), tu ∈ users → (users.map User.id).Nodup →
      eligibleVoters users tu.id = users.length - 1) ∧
    (∀ (votes : List (String × Bool)) (users : List User) (tid : String),
      (votes.map Prod.fst).Nodup →
      (∀ k ∈ votes.map Prod.fst, ∃ u ∈ users, u.id = k ∧ k ≠ tid) →
      yesCount votes + noCount votes ≤ eligibleVoters users tid) ∧
    (∀ (s : ServerState) (voterId voteId roomId ip : String) (b : Bool) (vd : VoteData),
      mapGet s.activeVotes voteId = some vd →
      ((∃ s3 evs, castVote s voterId voteId roomId ip b = CastResult.resolvedEarly s3 evs) ↔
        eligibleVoters (usersByRoom s.users roomId) vd.targetUserId ≤
          (mapSet vd.votes voterId b).length)) ∧
    voteTimeoutMs = 30000 := by
  refine ⟨eligibleVoters_eq_length_sub_one, ballots_le_eligible, ?_, rfl⟩
  intro s voterId voteId roomId ip b vd h
  simp only [castVote, h]
  by_cases hcond : eligibleVoters (usersByRoom s.users roomId) vd.targetUserId ≤
      (mapSet vd.votes voterId b).length
  · rw [if_pos hcond]
    constructor
    · intro _; exact hcond
    · intro _
      exact ⟨_, _, rfl⟩
  · rw [if_neg hcond]
    constructor
    · rintro ⟨s3, evs, heq⟩
      cases heq
    · intro hc; exact absurd hc hcond

/-- C3 witness: the amended theorem evaluated on a concrete 2-user room
with a single cast reaching quorum. -/
theorem c3_quorum_witness :
    eligibleVoters
      [⟨"t", "T", "r", false, true, 0, 1, "st"⟩,
       ⟨"a", "A", "r", true, true, 0, 2, "sa"⟩] "t" = 1 ∧
    (∃ s3 evs, castVote
      ⟨[], [⟨"t", "T", "r", false, true, 0, 1, "st"⟩,
            ⟨"a", "A", "r", true, true, 0, 2, "sa"⟩], [], [], [], [],
        [("v1", ⟨"v1", "t", "T", "a", "A", VoteType.kick, [], true⟩)]⟩
      "a" "v1" "r" "ip" true = CastResult.resolvedEarly s3 evs) := by
  constructor
  · have := c3_quorum_correct.1
      [⟨"t", "T", "r", false, true, 0, 1, "st"⟩,
       ⟨"a", "A", "r", true, true, 0, 2, "sa"⟩]
      ⟨"t", "T", "r", false, true, 0, 1, "st"⟩ (by decide) (by decide)
    simpa using this
  · exact (c3_quorum_correct.2.2.1
      ⟨[], [⟨"t", "T", "r", false, true, 0, 1, "st"⟩,
            ⟨"a", "A", "r", true, true, 0, 2, "sa"⟩], [], [], [], [],
        [("v1", ⟨"v1", "t", "T", "a", "A", VoteType.kick, [], true⟩)]⟩
      "a" "v1" "r" "ip" true
      ⟨"v1", "t", "T", "a", "A", VoteType.kick, [], true⟩ rfl).mpr (by decide)

theorem mapGet_mapSet_self {α : Type} (m : List (String × α)) (k : String) (v : α) :
    mapGet (mapSet m k v) k = some v := by
  induction m with
  | nil => simp [mapSet, mapGet]
  | cons p rest ih =>
    obtain ⟨k', v'⟩ := p
    by_cases hp : k' = k
    · simp [mapSet, hp, mapGet]
    · simp [mapSet, hp, mapGet, ih]

theorem mapSet_keys_of_mem {α : Type} (m : List (String × α)) (k : String) (v : α)
    (hk : k ∈ m.map Prod.fst) : (mapSet m k v).map Prod.fst = m.map Prod.fst := by
  induction m with
  | nil => cases hk
  | cons p rest ih =>
    obtain ⟨k', v'⟩ := p
    by_cases hp : k' = k
    · simp [mapSet, hp]
    · simp only [List.map_cons, List.mem_cons] at hk
      rcases hk with hk | hk
      · exact absurd hk.symm hp
      · simp [mapSet, hp, ih hk]

theorem mapSet_keys_of_not_mem {α : Type} (m : List (String × α)) (k : String) (v : α)
    (hk : k ∉ m.map Prod.fst) : (mapSet m k v).map Prod.fst = m.map Prod.fst ++ [k] := by
  induction m with
  | nil => rfl
  | cons p rest ih =>
    obtain ⟨k', v'⟩ := p
    simp only [List.map_cons, List.mem_cons] at hk
    push_neg at hk
    simp [mapSet, Ne.symm hk.1, ih hk.2]

/-- C4 (counterexample): a 3-user room with an empty kick vote against
u3.  Voter u1 casts yes, then casts again with no: the second cast is
accepted (vote_updated is broadcast again), and the retained ballot is
the second value no, not the first cast yes. -/
theorem c4_second_cast_overwrites :
    castVote
      ⟨[], [⟨"u1", "U1", "r", false, true, 0, 1, "s1"⟩,
            ⟨"u2", "U2", "r", false, true, 0, 2, "s2"⟩,
            ⟨"u3", "U3", "r", false, true, 0, 3, "s3"⟩], [], [], [], [],
        [("v", ⟨"v", "u3", "U3", "u1", "U1", VoteType.kick, [], true⟩)]⟩
      "u1" "v" "r" "ip" true =
      CastResult.accepted
        ⟨[], [⟨"u1", "U1", "r", false, true, 0, 1, "s1"⟩,
              ⟨"u2", "U2", "r", false, true, 0, 2, "s2"⟩,
              ⟨"u3", "U3", "r", false, true, 0, 3, "s3"⟩], [], [], [], [],
          [("v", ⟨"v", "u3", "U3", "u1", "U1", VoteType.kick, [("u1", true)], true⟩)]⟩
        [Event.voteUpdated "v" 1 0] ∧
    castVote
      ⟨[], [⟨"u1", "U1", "r", false, true, 0, 1, "s1"⟩,
            ⟨"u2", "U2", "r", false, true, 0, 2, "s2"⟩,
            ⟨"u3", "U3", "r", false, true, 0, 3, "s3"⟩], [], [], [], [],
        [("v", ⟨"v", "u3", "U3", "u1", "U1", VoteType.kick, [("u1", true)], true⟩)]⟩
      "u1" "v" "r" "ip" false =
      CastResult.accepted
        ⟨[], [⟨"u1", "U1", "r", false, true, 0, 1, "s1"⟩,
              ⟨"u2", "U2", "r", false, true, 0, 2, "s2"⟩,
              ⟨"u3", "U3", "r", false, true, 0, 3, "s3"⟩], [], [], [], [],
          [("v", ⟨"v", "u3", "U3", "u1", "U1", VoteType.kick, [("u1", false)], true⟩)]⟩
        [Event.voteUpdated "v" 0 1] := by
  decide

/-- C4 (amended): each voter has at most one retained ballot, because
Map.set replaces in place: re-casting keeps the key list unchanged and
stores the new value, so the recorded ballot is the value of the last
cast, not the first; a first cast appends the voter once; and a cast on
an existing vote is never rejected. -/
theorem c4_ballot_per_voter :
    (∀ (votes : List (String × Bool)) (k : String) (b : Bool),
      mapGet (mapSet votes k b) k = some b) ∧
    (∀ (votes : List (String × Bool)) (k : String) (b : Bool),
      k ∈ votes.map Prod.fst → (mapSet votes k b).map Prod.fst = votes.map Prod.fst) ∧
    (∀ (votes : List (String × Bool)) (k : String) (b : Bool),
      k ∉ votes.map Prod.fst →
        (mapSet votes k b).map Prod.fst = votes.map Prod.fst ++ [k]) ∧
    (∀ (s : ServerState) (voterId voteId roomId ip : String) (b : Bool) (vd : VoteData),
      mapGet s.activeVotes voteId = some vd →
      castVote s voterId voteId roomId ip b ≠ CastResult.ignored) := by
  refine ⟨mapGet_mapSet_self, mapSet_keys_of_mem, mapSet_keys_of_not_mem, ?_⟩
  intro s voterId voteId roomId ip b vd h
  simp only [castVote, h]
  split
  · simp
  · simp

/-- C4 witness: the amended theorem applied at concrete ballots. -/
theorem c4_ballot_per_voter_witness :
    (mapSet [("a", true)] "a" false).map Prod.fst = [("a", true)].map Prod.fst ∧
    castVote
      ⟨[], [], [], [], [], [],
        [("v", ⟨"v", "t", "T", "a", "A", VoteType.rejoin, [("a", true)], true⟩)]⟩
      "a" "v" "r" "ip" false ≠ CastResult.ignored := by
  constructor
  · exact c4_ballot_per_voter.2.1 [("a", true)] "a" false (by decide)
  · exact c4_ballot_per_voter.2.2.2
      ⟨[], [], [], [], [], [],
        [("v", ⟨"v", "t", "T", "a", "A", VoteType.rejoin, [("a", true)], true⟩)]⟩
      "a" "v" "r" "ip" false
      ⟨"v", "t", "T", "a", "A", VoteType.rejoin, [("a", true)], true⟩ rfl

/-! ## Claim C5: use_skip -/

/-- use_skip handler: with no user record or a non-positive skip count
it reports "No skips remaining" to the caller and changes nothing;
otherwise it decrements the callers skip count, broadcasts
user_used_skip, and emits a next_turn event back to the calling client
only (socket.emit targets the caller, and the client registers no
next_turn listener), so the handler itself does not touch the game
state.  The handler reads neither the game phase nor the target. -/
def useSkip (s : ServerState) (callerId roomId : String) : ServerState × List Event :=
  match getUser s.users callerId with
  | none => (s, [Event.errorEvent "No skips remaining"])
  | some user =>
    if user.skipsRemaining ≤ 0 then (s, [Event.errorEvent "No skips remaining"])
    else
      ({ s with users := updateUserSkips s.users callerId (user.skipsRemaining - 1) },
       [Event.userUsedSkip callerId (user.skipsRemaining - 1),
        Event.nextTurnEmitToCaller roomId])

/-- C5 (counterexample): the room is in phase waiting and the caller a
is not the bottle target (b is), yet use_skip succeeds: it decrements
the skip count and raises no error, and it leaves the game state
untouched instead of advancing the turn. -/
theorem c5_use_skip_without_guards :
    useSkip
      ⟨[], [⟨"a", "A", "r", true, true, 1, 1, "sa"⟩,
            ⟨"b", "B", "r", false, true, 1, 2, "sb"⟩], [], [],
        [⟨"r", some "b", some "b", GamePhase.waiting, none, none⟩], [], []⟩
      "a" "r" =
      (⟨[], [⟨"a", "A", "r", true, true, 0, 1, "sa"⟩,
             ⟨"b", "B", "r", false, true, 1, 2, "sb"⟩], [], [],
         [⟨"r", some "b", some "b", GamePhase.waiting, none, none⟩], [], []⟩,
       [Event.userUsedSkip "a" 0, Event.nextTurnEmitToCaller "r"]) := by
  decide

/-- C5 (amended): use_skip succeeds exactly when the callers user record
exists with a positive skip count — the phase and the current target
are not checked; on success it decrements that users skip count by one
(which never goes negative), leaves every game state unchanged (the
turn-advance is only an emit back to the caller, not applied), and with
zero skips it fails with the No skips remaining error and no state
change. -/
theorem c5_useSkip_correct (s : ServerState) (callerId roomId : String) (u : User)
    (hu : getUser s.users callerId = some u) :
    (u.skipsRemaining ≤ 0 →
      useSkip s callerId roomId = (s, [Event.errorEvent "No skips remaining"])) ∧
    (0 < u.skipsRemaining →
      useSkip s callerId roomId =
        ({ s with users := updateUserSkips s.users callerId (u.skipsRemaining - 1) },
         [Event.userUsedSkip callerId (u.skipsRemaining - 1),
          Event.nextTurnEmitToCaller roomId]) ∧
      (useSkip s callerId roomId).1.gameStates = s.gameStates ∧
      0 ≤ u.skipsRemaining - 1) := by
  constructor
  · intro hz
    simp [useSkip, hu, hz]
  · intro hp
    have hnz : ¬ u.skipsRemaining ≤ 0 := by omega
    refine ⟨by simp [useSkip, hu, hnz], by simp [useSkip, hu, hnz], by omega⟩

/-- C5 witness: the amended theorem at a caller with zero skips (error,
no change) and at one with two skips (decrement to one). -/
theorem c5_useSkip_witness :
    useSkip ⟨[], [⟨"a", "A", "r", true, true, 0, 1, "sa"⟩], [], [], [], [], []⟩ "a" "r" =
      (⟨[], [⟨"a", "A", "r", true, true, 0, 1, "sa"⟩], [], [], [], [], []⟩,
       [Event.errorEvent "No skips remaining"]) ∧
    useSkip ⟨[], [⟨"a", "A", "r", true, true, 2, 1, "sa"⟩], [], [], [], [], []⟩ "a" "r" =
      (⟨[], [⟨"a", "A", "r", true, true, 1, 1, "sa"⟩], [], [], [], [], []⟩,
       [Event.userUsedSkip "a" 1, Event.nextTurnEmitToCaller "r"]) := by
  constructor
  · exact (c5_useSkip_correct
      ⟨[], [⟨"a", "A", "r", true, true, 0, 1, "sa"⟩], [], [], [], [], []⟩ "a" "r"
      ⟨"a", "A", "r", true, true, 0, 1, "sa"⟩ rfl).1 (by decide)
  · have h := (c5_useSkip_correct
      ⟨[], [⟨"a", "A", "r", true, true, 2, 1, "sa"⟩], [], [], [], [], []⟩ "a" "r"
      ⟨"a", "A", "r", true, true, 2, 1, "sa"⟩ rfl).2 (by decide)
    rw [h.1]
    decide

/-! ## Claim C6: host reassignment -/

/-- The disconnect grace-period callback (the 120-second
reconnectTimeout in the disconnect handler): when the user record still
exists and still references the disconnected socket, it flips the user
offline, broadcasts user_left, and, when online users remain in the
room and the user held the host flag, makes the first minimal-joinedAt
online user the new host. -/
def disconnectGraceExpire (s : ServerState) (userId roomId socketId : String) :
    ServerState × List Event :=
  match getUser s.users userId with
  | none => (s, [])
  | some user =>
    if user.socketId = socketId then
      let users1 := updateUserOnline s.users userId false
      let s1 : ServerState := { s with users := users1 }
      let onlineUsers := (usersByRoom users1 roomId).filter (fun u => u.isOnline)
      if onlineUsers.length = 0 then (s1, [Event.userLeft userId])
      else if user.isHost = true then
        match oldestUser onlineUsers with
        | some oldest =>
          ({ s1 with
             users := makeUserHost s1.users oldest.id,
             rooms := updateRoomHost s1.rooms roomId oldest.id },
           [Event.userLeft userId, Event.newHost oldest.id oldest.username])
        | none => (s1, [Event.userLeft userId])
      else (s1, [Event.userLeft userId])
    else (s, [])

theorem oldestUser_spec (l : List User) (h : l ≠ []) :
    ∃ m, oldestUser l = some m ∧ m ∈ l ∧ ∀ u ∈ l, m.joinedAt ≤ u.joinedAt := by
  induction l with
  | nil => exact absurd rfl h
  | cons u rest ih =>
    by_cases hr : rest = []
    · subst hr
      exact ⟨u, rfl, List.mem_cons_self u [], by
        intro w hw
        rcases List.mem_cons.mp hw with hw | hw
        · exact hw ▸ le_refl _
        · cases hw⟩
    · obtain ⟨m, hm, hmem, hmin⟩ := ih hr
      simp only [oldestUser, hm]
      by_cases hle : u.joinedAt ≤ m.joinedAt
      · rw [if_pos hle]
        refine ⟨u, rfl, List.mem_cons_self u rest, ?_⟩
        intro w hw
        rcases List.mem_cons.mp hw with hw | hw
        · exact hw ▸ le_refl _
        · exact le_trans hle (hmin w hw)
      · rw [if_neg hle]
        refine ⟨m, rfl, List.mem_cons_of_mem u hmem, ?_⟩
        intro w hw
        rcases List.mem_cons.mp hw with hw | hw
        · subst hw; omega
        · exact hmin w hw

theorem applyKick_host_eq (s : ServerState) (vd : VoteData) (roomId ip : String)
    (tu : User) (htu : getUser s.users vd.targetUserId = some tu)
    (hhost : tu.isHost = true)
    (hne : usersByRoom (deleteUser s.users vd.targetUserId) roomId ≠ [])
    (m : User)
    (hm : oldestUser (usersByRoom (deleteUser s.users vd.targetUserId) roomId) = some m) :
    applyKick s vd roomId ip =
      ({ s with
         kickedUsers := s.kickedUsers ++ [⟨roomId, ip, tu.username⟩],
         users := makeUserHost (deleteUser s.users vd.targetUserId) m.id,
         rooms := updateRoomHost s.rooms roomId m.id },
       [Event.userLeft vd.targetUserId, Event.newHost m.id m.username]) := by
  simp only [applyKick, htu]
  rw [if_pos ⟨List.length_pos.mpr hne, hhost⟩, hm]

theorem disconnectGraceExpire_host_eq (s : ServerState)
    (userId roomId socketId : String) (u : User)
    (hu : getUser s.users userId = some u) (hsock : u.socketId = socketId)
    (hhost : u.isHost = true)
    (hne : (usersByRoom (updateUserOnline s.users userId false) roomId).filter
      (fun w => w.isOnline) ≠ [])
    (m : User)
    (hm : oldestUser ((usersByRoom (updateUserOnline s.users userId false) roomId).filter
      (fun w => w.isOnline)) = some m) :
    disconnectGraceExpire s userId roomId socketId =
      ({ s with
         users := makeUserHost (updateUserOnline s.users userId false) m.id,
         rooms := updateRoomHost s.rooms roomId m.id },
       [Event.userLeft userId, Event.newHost m.id m.username]) := by
  simp only [disconnectGraceExpire, hu]
  rw [if_pos hsock,
    if_neg (fun hz => hne (List.length_eq_zero.mp hz)), if_pos hhost, hm]

/-- C6 (counterexample): host a is kicked by a passed vote in a room
whose remaining users are b (offline, joined earlier) and c (online,
joined later).  The code reassigns the host flag to the offline b, so
the room has one online user and zero online hosts, and the selected
user is not the earliest-joined online user. -/
theorem c6_kick_reassigns_offline_host :
    (resolveVote
      ⟨[], [⟨"a", "A", "r", true, true, 0, 1, "sa"⟩,
            ⟨"b", "B", "r", false, false, 0, 2, "sb"⟩,
            ⟨"c", "C", "r", false, true, 0, 3, "sc"⟩], [], [], [], [],
        [("v", ⟨"v", "a", "A", "c", "C", VoteType.kick, [("c", true)], true⟩)]⟩
      "v" "r" "ip").1.users =
      [⟨"b", "B", "r", true, false, 0, 2, "sb"⟩,
       ⟨"c", "C", "r", false, true, 0, 3, "sc"⟩] ∧
    Event.newHost "b" "B" ∈ (resolveVote
      ⟨[], [⟨"a", "A", "r", true, true, 0, 1, "sa"⟩,
            ⟨"b", "B", "r", false, false, 0, 2, "sb"⟩,
            ⟨"c", "C", "r", false, true, 0, 3, "sc"⟩], [], [], [], [],
        [("v", ⟨"v", "a", "A", "c", "C", VoteType.kick, [("c", true)], true⟩)]⟩
      "v" "r" "ip").2 ∧
    (([⟨"b", "B", "r", true, false, 0, 2, "sb"⟩,
       ⟨"c", "C", "r", false, true, 0, 3, "sc"⟩] : List User).filter
        (fun u => u.isOnline)).length = 1 ∧
    (([⟨"b", "B", "r", true, false, 0, 2, "sb"⟩,
       ⟨"c", "C", "r", false, true, 0, 3, "sc"⟩] : List User).filter
        (fun u => u.isOnline && u.isHost)).length = 0 := by
  decide

/-- C6 (amended): host reassignment after a passed kick selects the
first minimal-joinedAt user among all remaining room users regardless
of the online flag (so the flag can land on an offline user, leaving no
online host); reassignment after the disconnect grace period expires
selects the first minimal-joinedAt user among online room users, who is
online. -/
theorem c6_host_reassignment :
    (∀ (s : ServerState) (vd : VoteData) (roomId ip : String) (tu : User),
      getUser s.users vd.targetUserId = some tu → tu.isHost = true →
      usersByRoom (deleteUser s.users vd.targetUserId) roomId ≠ [] →
      ∃ m, m ∈ usersByRoom (deleteUser s.users vd.targetUserId) roomId ∧
        (∀ w ∈ usersByRoom (deleteUser s.users vd.targetUserId) roomId,
          m.joinedAt ≤ w.joinedAt) ∧
        (applyKick s vd roomId ip).1.users =
          makeUserHost (deleteUser s.users vd.targetUserId) m.id ∧
        Event.newHost m.id m.username ∈ (applyKick s vd roomId ip).2) ∧
    (∀ (s : ServerState) (userId roomId socketId : String) (u : User),
      getUser s.users userId = some u → u.socketId = socketId → u.isHost = true →
      (usersByRoom (updateUserOnline s.users userId false) roomId).filter
        (fun w => w.isOnline) ≠ [] →
      ∃ m : User, m.isOnline = true ∧
        (∀ w ∈ (usersByRoom (updateUserOnline s.users userId false) roomId).filter
            (fun w => w.isOnline), m.joinedAt ≤ w.joinedAt) ∧
        (disconnectGraceExpire s userId roomId socketId).1.users =
          makeUserHost (updateUserOnline s.users userId false) m.id ∧
        Event.newHost m.id m.username ∈
          (disconnectGraceExpire s userId roomId socketId).2) := by
  constructor
  · intro s vd roomId ip tu htu hhost hne
    obtain ⟨m, hm, hmem, hmin⟩ := oldestUser_spec _ hne
    refine ⟨m, hmem, hmin, ?_, ?_⟩
    · rw [applyKick_host_eq s vd roomId ip tu htu hhost hne m hm]
    · rw [applyKick_host_eq s vd roomId ip tu htu hhost hne m hm]
      simp
  · intro s userId roomId socketId u hu hsock hhost hne
    obtain ⟨m, hm, hmem, hmin⟩ := oldestUser_spec _ hne
    have honline : m.isOnline = true := by
      have := List.mem_filter.mp hmem
      simpa using this.2
    refine ⟨m, honline, hmin, ?_, ?_⟩
    · rw [disconnectGraceExpire_host_eq s userId roomId socketId u hu hsock hhost hne m hm]
    · rw [disconnectGraceExpire_host_eq s userId roomId socketId u hu hsock hhost hne m hm]
      simp

/-- C6 witness: the amended theorem at a concrete grace expiry of host a
in a room with online users b (joined 2) and c (joined 3): b becomes
host. -/
theorem c6_host_reassignment_witness :
    ∃ m : User, m.isOnline = true ∧
      (∀ w ∈ (usersByRoom (updateUserOnline
          [⟨"a", "A", "r", true, true, 0, 1, "sa"⟩,
           ⟨"b", "B", "r", false, true, 0, 2, "sb"⟩,
           ⟨"c", "C", "r", false, true, 0, 3, "sc"⟩] "a" false) "r").filter
          (fun w => w.isOnline), m.joinedAt ≤ w.joinedAt) ∧
      (disconnectGraceExpire
        ⟨[], [⟨"a", "A", "r", true, true, 0, 1, "sa"⟩,
              ⟨"b", "B", "r", false, true, 0, 2, "sb"⟩,
              ⟨"c", "C", "r", false, true, 0, 3, "sc"⟩], [], [], [], [], []⟩
        "a" "r" "sa").1.users =
        makeUserHost (updateUserOnline
          [⟨"a", "A", "r", true, true, 0, 1, "sa"⟩,
           ⟨"b", "B", "r", false, true, 0, 2, "sb"⟩,
           ⟨"c", "C", "r", false, true, 0, 3, "sc"⟩] "a" false) m.id ∧
      Event.newHost m.id m.username ∈
        (disconnectGraceExpire
          ⟨[], [⟨"a", "A", "r", true, true, 0, 1, "sa"⟩,
                ⟨"b", "B", "r", false, true, 0, 2, "sb"⟩,
                ⟨"c", "C", "r", false, true, 0, 3, "sc"⟩], [], [], [], [], []⟩
          "a" "r" "sa").2 := by
  exact c6_host_reassignment.2
    ⟨[], [⟨"a", "A", "r", true, true, 0, 1, "sa"⟩,
          ⟨"b", "B", "r", false, true, 0, 2, "sb"⟩,
          ⟨"c", "C", "r", false, true, 0, 3, "sc"⟩], [], [], [], [], []⟩
    "a" "r" "sa" ⟨"a", "A", "r", true, true, 0, 1, "sa"⟩ rfl rfl rfl (by decide)

/-! ## Claim C7: spin_bottle -/

theorem filter_ne_nil_of_two (l : List User) (c : String)
    (hnd : (l.map User.id).Nodup) (h2 : 2 ≤ l.length) :
    l.filter (fun u => u.id ≠ c) ≠ [] := by
  intro hemp
  rw [List.filter_eq_nil_iff] at hemp
  rcases l with _ | ⟨u, _ | ⟨v, rest⟩⟩
  · simp at h2
  · simp at h2
  · have hu : u.id = c := by simpa using hemp u (by simp)
    have hv : v.id = c := by simpa using hemp v (by simp)
    simp only [List.map_cons, List.nodup_cons, List.mem_cons] at hnd
    exact hnd.1 (Or.inl (hu.trans hv.symm))

/-- C7: spin_bottle with fewer than 2 online users fails with the
InsufficientPlayers error (message Not enough players) and changes no
state (the handler returns before any game-state write); otherwise,
with distinct user ids, the chosen target is a user online at spin
time, the target is never the spinner, the phase becomes spinning with
the target recorded, and the broadcast spin duration is an element of
2000, 4500, 7000 milliseconds. -/
theorem c7_spin_correct (users : List User) (gs : GameState) (callerId : String)
    (ri di : Nat) :
    ((users.filter (fun u => u.isOnline)).length < 2 →
      spinBottle users gs callerId ri di = SpinResult.insufficientPlayers) ∧
    (2 ≤ (users.filter (fun u => u.isOnline)).length →
      (users.map User.id).Nodup →
      ∃ t d, spinBottle users gs callerId ri di =
          SpinResult.spun
            { gs with gamePhase := GamePhase.spinning, targetUserId := some t.id }
            t.id d ∧
        t ∈ users.filter (fun u => u.isOnline) ∧ t.id ≠ callerId ∧
        d ∈ ([2000, 4500, 7000] : List Nat)) := by
  constructor
  · intro h
    simp [spinBottle, h]
  · intro h2 hnd
    have hondup : ((users.filter (fun u => u.isOnline)).map User.id).Nodup :=
      ((List.filter_sublist users).map User.id).nodup hnd
    have hne := filter_ne_nil_of_two (users.filter (fun u => u.isOnline)) callerId hondup h2
    have hlen : 0 < ((users.filter (fun u => u.isOnline)).filter
        (fun u => u.id ≠ callerId)).length := List.length_pos.mpr hne
    have hidx : ri % ((users.filter (fun u => u.isOnline)).filter
        (fun u => u.id ≠ callerId)).length <
        ((users.filter (fun u => u.isOnline)).filter
        (fun u => u.id ≠ callerId)).length := Nat.mod_lt _ hlen
    rcases hget : ((users.filter (fun u => u.isOnline)).filter
        (fun u => u.id ≠ callerId)).get?
        (ri % ((users.filter (fun u => u.isOnline)).filter
          (fun u => u.id ≠ callerId)).length) with _ | t
    · rw [List.get?_eq_none] at hget
      omega
    · have hmem := List.mem_filter.mp (List.get?_mem hget)
      refine ⟨t, (([2000, 4500, 7000] : List Nat).get?
          (di % ([2000, 4500, 7000] : List Nat).length)).getD 2000, ?_, hmem.1,
        by simpa using hmem.2, ?_⟩
      · simp only [spinBottle]
        rw [if_neg (by omega), hget]
      · have h3 : di % 3 = 0 ∨ di % 3 = 1 ∨ di % 3 = 2 := by omega
        rcases h3 with h | h | h <;> simp [h]

/-- C7 witness: a 2-user room, spinner a, random draws 0 and 1: the
target is the online other user and the duration one of the three
allowed values. -/
theorem c7_spin_witness :
    ∃ t d, spinBottle
        [⟨"a", "A", "r", true, true, 0, 1, "sa"⟩,
         ⟨"b", "B", "r", false, true, 0, 2, "sb"⟩]
        (initialGameState "r") "a" 0 1 =
        SpinResult.spun
          { initialGameState "r" with
            gamePhase := GamePhase.spinning, targetUserId := some t.id }
          t.id d ∧
      t ∈ ([⟨"a", "A", "r", true, true, 0, 1, "sa"⟩,
            ⟨"b", "B", "r", false, true, 0, 2, "sb"⟩] : List User).filter
          (fun u => u.isOnline) ∧ t.id ≠ "a" ∧
      d ∈ ([2000, 4500, 7000] : List Nat) := by
  exact (c7_spin_correct
    [⟨"a", "A", "r", true, true, 0, 1, "sa"⟩,
     ⟨"b", "B", "r", false, true, 0, 2, "sb"⟩]
    (initialGameState "r") "a" 0 1).2 (by decide) (by decide)

/-! ## Claim C8: inactivity supervision -/

/-- Timer callbacks scheduled by the inactivity supervision code:
warning is the outer 120-second setTimeout, escalation the setTimeout
nested 5 seconds after the warning body, voteTimeout the 30-second vote
resolution timeout. -/
inductive TimerKind
  | warning (roomId userId username : String)
  | escalation (roomId userId username : String)
  | voteTimeout (voteId roomId : String)
deriving DecidableEq, Repr

/-- A scheduled, not yet fired, not yet cancelled setTimeout callback. -/
structure PendingTimer where
  tid : Nat
  delayMs : Nat
  kind : TimerKind
deriving DecidableEq, Repr

/-- State of the timer subsystem: pending holds the scheduled callbacks,
inactivityTimers is the process-wide userId-to-handle map (the code
stores only the outer 120-second handle there), activeVotes the vote
map.  nextId generates fresh timer handles. -/
structure InactState where
  nextId : Nat
  pending : List PendingTimer
  inactivityTimers : List (String × Nat)
  activeVotes : List (String × VoteData)
deriving DecidableEq, Repr

/-- 120000 ms until the inactivity warning. -/
def inactivityWarningMs : Nat := 120000

/-- 5000 ms from the warning to the automatic kick vote. -/
def inactivityEscalationMs : Nat := 5000

/-- clearInactivityTimer: cancels the handle registered for the user in
inactivityTimers, if any, and removes the map entry.  Only the
registered handle is cancelled. -/
def clearInactivityTimer (s : InactState) (userId : String) : InactState :=
  match mapGet s.inactivityTimers userId with
  | none => s
  | some tid =>
    { s with
      pending := s.pending.filter (fun t => t.tid ≠ tid),
      inactivityTimers := mapDelete s.inactivityTimers userId }

/-- startInactivityTimer: clears any prior timer for the user, then
schedules the 120-second warning and registers its handle. -/
def startInactivityTimer (s : InactState) (roomId userId username : String) :
    InactState :=
  let s1 := clearInactivityTimer s userId
  { s1 with
    nextId := s1.nextId + 1,
    pending := s1.pending ++
      [⟨s1.nextId, inactivityWarningMs, TimerKind.warning roomId userId username⟩],
    inactivityTimers := mapSet s1.inactivityTimers userId s1.nextId }

/-- Firing a pending setTimeout callback; now is Date.now at firing
time (it enters the generated vote id).  A warning broadcasts
user_inactive and schedules the 5-second escalation under a fresh
handle that is NOT recorded in inactivityTimers; the escalation
unconditionally creates the system kick vote and schedules its
30-second timeout.  The voteTimeout body calls resolveVote on the
server state, modelled separately. -/
def fireTimer (s : InactState) (tid : Nat) (now : Nat) : InactState × List Event :=
  match s.pending.find? (fun t2 => t2.tid = tid) with
  | none => (s, [])
  | some t =>
    let s1 : InactState := { s with pending := s.pending.filter (fun t2 => t2.tid ≠ tid) }
    match t.kind with
    | TimerKind.warning roomId userId username =>
      ({ s1 with
         nextId := s1.nextId + 1,
         pending := s1.pending ++
           [⟨s1.nextId, inactivityEscalationMs,
             TimerKind.escalation roomId userId username⟩] },
       [Event.userInactive userId username])
    | TimerKind.escalation roomId userId username =>
      let voteId := "inactivity-" ++ userId ++ "-" ++ toString now
      ({ s1 with
         nextId := s1.nextId + 1,
         activeVotes := mapSet s1.activeVotes voteId
           ⟨voteId, userId, username, "system", "System", VoteType.kick, [], true⟩,
         pending := s1.pending ++
           [⟨s1.nextId, voteTimeoutMs, TimerKind.voteTimeout voteId roomId⟩] },
       [Event.voteStarted voteId userId username "System (Inactivity)" VoteType.kick])
    | TimerKind.voteTimeout _ _ => (s1, [])

/-- C8 (counterexample): supervision is armed for user u; the warning
fires at 120 s; the user then acts (clearInactivityTimer runs) — yet
the 5-second escalation is still pending, because only the registered
outer handle is cancelled, and when it fires the system kick vote is
created anyway.  The claim requires the action to cancel all pending
supervision timers, which would prevent that vote. -/
theorem c8_escalation_survives_clear :
    clearInactivityTimer
      (fireTimer (startInactivityTimer ⟨0, [], [], []⟩ "r" "u" "U") 0 999).1 "u" =
      ⟨2, [⟨1, 5000, TimerKind.escalation "r" "u" "U"⟩], [], []⟩ ∧
    (fireTimer (clearInactivityTimer
      (fireTimer (startInactivityTimer ⟨0, [], [], []⟩ "r" "u" "U") 0 999).1 "u")
      1 125).2 =
      [Event.voteStarted "inactivity-u-125" "u" "U" "System (Inactivity)"
        VoteType.kick] ∧
    mapGet (fireTimer (clearInactivityTimer
      (fireTimer (startInactivityTimer ⟨0, [], [], []⟩ "r" "u" "U") 0 999).1 "u")
      1 125).1.activeVotes "inactivity-u-125" =
      some ⟨"inactivity-u-125", "u", "U", "system", "System", VoteType.kick, [], true⟩ := by
  decide

/-- C8 (amended): arming schedules the 120000 ms warning and registers
its fresh handle, replacing any prior registered timer of that user;
when the warning fires, user_inactive is broadcast and a 5000 ms
escalation is scheduled under a fresh handle that is NOT registered in
inactivityTimers; the escalation unconditionally creates a kick vote
with initiator system against the supervised user and schedules its
30000 ms timeout; clearInactivityTimer (run on the supervised users
actions) unregisters the users handle and cancels that pending timer —
only the registered one, so a pending escalation survives it. -/
theorem c8_supervision_behavior :
    (∀ (s : InactState) (roomId userId username : String),
      mapGet (startInactivityTimer s roomId userId username).inactivityTimers userId =
        some (clearInactivityTimer s userId).nextId ∧
      (⟨(clearInactivityTimer s userId).nextId, inactivityWarningMs,
        TimerKind.warning roomId userId username⟩ : PendingTimer) ∈
        (startInactivityTimer s roomId userId username).pending) ∧
    (∀ (s : InactState) (userId : String),
      mapGet (clearInactivityTimer s userId).inactivityTimers userId = none ∧
      (∀ tid, mapGet s.inactivityTimers userId = some tid →
        ∀ t ∈ (clearInactivityTimer s userId).pending, t.tid ≠ tid)) ∧
    (∀ (s : InactState) (tid now : Nat) (t : PendingTimer),
      s.pending.find? (fun t2 => t2.tid = tid) = some t →
      ∀ roomId userId username,
        t.kind = TimerKind.warning roomId userId username →
        (fireTimer s tid now).2 = [Event.userInactive userId username] ∧
        (⟨s.nextId, inactivityEscalationMs,
          TimerKind.escalation roomId userId username⟩ : PendingTimer) ∈
          (fireTimer s tid now).1.pending ∧
        (fireTimer s tid now).1.inactivityTimers = s.inactivityTimers) ∧
    (∀ (s : InactState) (tid now : Nat) (t : PendingTimer),
      s.pending.find? (fun t2 => t2.tid = tid) = some t →
      ∀ roomId userId username,
        t.kind = TimerKind.escalation roomId userId username →
        (fireTimer s tid now).2 =
          [Event.voteStarted ("inactivity-" ++ userId ++ "-" ++ toString now)
            userId username "System (Inactivity)" VoteType.kick] ∧
        mapGet (fireTimer s tid now).1.activeVotes
            ("inactivity-" ++ userId ++ "-" ++ toString now) =
          some ⟨"inactivity-" ++ userId ++ "-" ++ toString now, userId, username,
            "system", "System", VoteType.kick, [], true⟩ ∧
        (⟨s.nextId, voteTimeoutMs,
          TimerKind.voteTimeout ("inactivity-" ++ userId ++ "-" ++ toString now)
            roomId⟩ : PendingTimer) ∈ (fireTimer s tid now).1.pending) := by
  refine ⟨?_, ?_, ?_, ?_⟩
  · intro s roomId userId username
    constructor
    · exact mapGet_mapSet_self _ _ _
    · simp [startInactivityTimer]
  · intro s userId
    constructor
    · rcases h : mapGet s.inactivityTimers userId with _ | tid
      · simp [clearInactivityTimer, h]
      · simp only [clearInactivityTimer, h]
        exact mapGet_mapDelete _ _
    · intro tid h t ht
      simp only [clearInactivityTimer, h] at ht
      simpa using (List.mem_filter.mp ht).2
  · intro s tid now t hfind roomId userId username hkind
    simp only [fireTimer, hfind, hkind]
    refine ⟨?_, ?_, ?_⟩ <;> simp
  · intro s tid now t hfind roomId userId username hkind
    simp only [fireTimer, hfind, hkind]
    refine ⟨?_, ?_, ?_⟩
    · simp
    · exact mapGet_mapSet_self _ _ _
    · simp

/-- C8 witness: the amended theorem at a concrete armed timer and its
warning firing. -/
theorem c8_supervision_witness :
    mapGet (startInactivityTimer ⟨0, [], [], []⟩ "r" "u" "U").inactivityTimers "u" =
      some 0 ∧
    (fireTimer ⟨1, [⟨0, 120000, TimerKind.warning "r" "u" "U"⟩], [("u", 0)], []⟩
      0 999).2 = [Event.userInactive "u" "U"] := by
  constructor
  · exact ((c8_supervision_behavior.1 ⟨0, [], [], []⟩ "r" "u" "U").1)
  · exact (c8_supervision_behavior.2.2.1
      ⟨1, [⟨0, 120000, TimerKind.warning "r" "u" "U"⟩], [("u", 0)], []⟩ 0 999
      ⟨0, 120000, TimerKind.warning "r" "u" "U"⟩ rfl "r" "u" "U" rfl).1

/-! ## Claim C9: the reap sweep -/

/-- path.basename for slash-separated paths: the segment after the last
slash (the whole string when no slash occurs). -/
def basename (s : String) : String :=
  ⟨s.data.foldl (fun acc c => if c = '/' then [] else acc ++ [c]) []⟩

/-- storage.getMessagesByRoom: the rooms messages sorted by createdAt
descending (the stable JS sort is modelled by the stable insertion
sort), truncated to the most recent limit entries, returned in
ascending order. -/
def getMessagesByRoom (messages : List Message) (roomId : String) (limit : Nat) :
    List Message :=
  ((List.insertionSort (fun a b => b.createdAt ≤ a.createdAt)
      (messages.filter (fun m => m.roomId = roomId))).take limit).reverse

/-- fileUpload.deleteAllFilesInRoom: removes every stored file whose
name is the basename of some media URL among the given messages. -/
def deleteAllFilesInRoom (files : List String) (msgs : List Message) : List String :=
  files.filter (fun f => !(msgs.any (fun m =>
    match m.mediaUrl with
    | some u => basename u = f
    | none => false)))

/-- The 5-minute reap interval (setInterval delay 5 * 60 * 1000). -/
def cleanupIntervalMs : Nat := 5 * 60 * 1000

/-- storage.getInactiveRooms: non-expired rooms whose lastActivity lies
before the cutoff, now minus the given minutes. -/
def getInactiveRooms (rooms : List Room) (now : Nat) (minutesInactive : Nat) :
    List Room :=
  rooms.filter (fun r =>
    !r.isExpired && decide (r.lastActivity < now - minutesInactive * 60 * 1000))

/-- The cleanup body for one inactive room: delete the files referenced
by the fetched messages (at most the 100 most recent), delete the rooms
messages, mark the room expired, then delete the room record.  No call
deletes the rooms game state or its user records. -/
def reapRoom (s : ServerState) (roomId : String) : ServerState :=
  let msgs := getMessagesByRoom s.messages roomId 100
  { s with
    files := deleteAllFilesInRoom s.files msgs,
    messages := s.messages.filter (fun m => m.roomId ≠ roomId),
    rooms := (s.rooms.map
      (fun r => if r.id = roomId then { r with isExpired := true } else r)).filter
      (fun r => r.id ≠ roomId) }

/-- One cleanup sweep: reap every room inactive for over 30 minutes,
with no regard to connected users. -/
def cleanupSweep (s : ServerState) (now : Nat) : ServerState :=
  (getInactiveRooms s.rooms now 30).foldl (fun acc r => reapRoom acc r.id) s

theorem not_mem_deleteAllFilesInRoom (files : List String) (msgs : List Message)
    (m : Message) (u f : String) (hm : m ∈ msgs) (hurl : m.mediaUrl = some u)
    (hbase : basename u = f) : f ∉ deleteAllFilesInRoom files msgs := by
  intro hf
  have h2 := (List.mem_filter.mp hf).2
  rw [Bool.not_eq_true', List.any_eq_false] at h2
  have h3 := h2 m hm
  rw [hurl] at h3
  simp [hbase] at h3

/-- C9 (counterexample): a room idle for 31 minutes with one online
user, one media message and a game state.  The sweep deletes the room
record, the messages and the media file even though a user is online,
but the rooms game-state record is NOT deleted: it survives in
storage, contradicting the claimed cascade. -/
theorem c9_game_state_survives_reap :
    (cleanupSweep
      ⟨[⟨"room1", "KEY", "h", 0, 0, false⟩],
       [⟨"u1", "U1", "room1", true, true, 0, 1, "s1"⟩],
       [⟨"m1", "room1", some "/uploads/abc.png", 5⟩], [],
       [⟨"room1", none, none, GamePhase.waiting, none, none⟩],
       ["abc.png"], []⟩ (31 * 60 * 1000)).rooms = [] ∧
    (cleanupSweep
      ⟨[⟨"room1", "KEY", "h", 0, 0, false⟩],
       [⟨"u1", "U1", "room1", true, true, 0, 1, "s1"⟩],
       [⟨"m1", "room1", some "/uploads/abc.png", 5⟩], [],
       [⟨"room1", none, none, GamePhase.waiting, none, none⟩],
       ["abc.png"], []⟩ (31 * 60 * 1000)).messages = [] ∧
    (cleanupSweep
      ⟨[⟨"room1", "KEY", "h", 0, 0, false⟩],
       [⟨"u1", "U1", "room1", true, true, 0, 1, "s1"⟩],
       [⟨"m1", "room1", some "/uploads/abc.png", 5⟩], [],
       [⟨"room1", none, none, GamePhase.waiting, none, none⟩],
       ["abc.png"], []⟩ (31 * 60 * 1000)).files = [] ∧
    (cleanupSweep
      ⟨[⟨"room1", "KEY", "h", 0, 0, false⟩],
       [⟨"u1", "U1", "room1", true, true, 0, 1, "s1"⟩],
       [⟨"m1", "room1", some "/uploads/abc.png", 5⟩], [],
       [⟨"room1", none, none, GamePhase.waiting, none, none⟩],
       ["abc.png"], []⟩ (31 * 60 * 1000)).gameStates =
      [⟨"room1", none, none, GamePhase.waiting, none, none⟩] ∧
    (([⟨"u1", "U1", "room1", true, true, 0, 1, "s1"⟩] : List User).filter
      (fun u => u.isOnline)).length = 1 := by
  decide

/-- C9 (amended): the sweep runs every 5 minutes and reaps exactly the
non-expired rooms whose lastActivity is older than 30 minutes,
regardless of connected users (user records are never consulted or
changed); reaping removes the rooms messages, the media files
referenced by the (up to 100 most recent) fetched messages, and the
room record itself — but not the rooms game-state record, which stays
in storage. -/
theorem c9_reap_behavior :
    cleanupIntervalMs = 300000 ∧
    (∀ (rooms : List Room) (now : Nat) (r : Room),
      r ∈ getInactiveRooms rooms now 30 ↔
        r ∈ rooms ∧ r.isExpired = false ∧
          r.lastActivity < now - 30 * 60 * 1000) ∧
    (∀ (s : ServerState) (roomId : String),
      (reapRoom s roomId).gameStates = s.gameStates ∧
      (reapRoom s roomId).users = s.users ∧
      (∀ m ∈ (reapRoom s roomId).messages, m.roomId ≠ roomId) ∧
      (∀ r ∈ (reapRoom s roomId).rooms, r.id ≠ roomId)) ∧
    (∀ (s : ServerState) (roomId : String) (m : Message) (u f : String),
      (s.messages.filter (fun m2 => m2.roomId = roomId)).length ≤ 100 →
      m ∈ s.messages → m.roomId = roomId → m.mediaUrl = some u → basename u = f →
      f ∉ (reapRoom s roomId).files) := by
  refine ⟨rfl, ?_, ?_, ?_⟩
  · intro rooms now r
    simp [getInactiveRooms, List.mem_filter, and_assoc]
  · intro s roomId
    refine ⟨rfl, rfl, ?_, ?_⟩
    · intro m hm
      simpa using (List.mem_filter.mp hm).2
    · intro r hr
      simpa using (List.mem_filter.mp hr).2
  · intro s roomId m u f hlen hm hroom hurl hbase
    have hmem2 : m ∈ getMessagesByRoom s.messages roomId 100 := by
      unfold getMessagesByRoom
      rw [List.mem_reverse, List.take_of_length_le, (List.perm_insertionSort _ _).mem_iff]
      · exact List.mem_filter.mpr ⟨hm, by simp [hroom]⟩
      · rw [(List.perm_insertionSort _ _).length_eq]
        exact hlen
    exact not_mem_deleteAllFilesInRoom s.files _ m u f hmem2 hurl hbase

/-- C9 witness: the amended theorem applied to the concrete idle room:
the room qualifies for reaping and its media file is removed. -/
theorem c9_reap_witness :
    ((⟨"room1", "KEY", "h", 0, 0, false⟩ : Room) ∈ getInactiveRooms
      [⟨"room1", "KEY", "h", 0, 0, false⟩] (31 * 60 * 1000) 30) ∧
    "abc.png" ∉ (reapRoom
      ⟨[⟨"room1", "KEY", "h", 0, 0, false⟩], [],
       [⟨"m1", "room1", some "/uploads/abc.png", 5⟩], [], [],
       ["abc.png"], []⟩ "room1").files := by
  constructor
  · exact (c9_reap_behavior.2.1 [⟨"room1", "KEY", "h", 0, 0, false⟩]
      (31 * 60 * 1000) ⟨"room1", "KEY", "h", 0, 0, false⟩).mpr
      ⟨by decide, rfl, by decide⟩
  · exact c9_reap_behavior.2.2.2
      ⟨[⟨"room1", "KEY", "h", 0, 0, false⟩], [],
       [⟨"m1", "room1", some "/uploads/abc.png", 5⟩], [], [],
       ["abc.png"], []⟩ "room1" ⟨"m1", "room1", some "/uploads/abc.png", 5⟩
      "/uploads/abc.png" "abc.png" (by decide) (by decide) rfl rfl (by decide)

end TruthOrDare
